import Mathlib

/-!
Verification of the wasm-bodge build subsystem: a shallow embedding of the
declarative target/environment model (`src/build/targets.rs`), the entrypoint
synthesizers, the package.json manifest merge (`src/build/package_json.rs`),
the post-processing transforms (`src/build/post_process.rs`) and the CJS
base64 module generation (`src/build/finalize.rs`), together with theorems
about them.

Modelling conventions:
* JavaScript source text is Lean `String`; wasm bytes are `List Nat` with
  every element below 256.
* `serde_json::Map` is modelled as an insertion-ordered association list
  (`List (String × Json)`) whose `insert` replaces an existing key's value in
  place and appends fresh keys at the end.  The repository's `Cargo.toml` is
  not among the staged sources, so the map's ordering behaviour is modelled
  from the spec, which states that the manifest merge produces ordered
  objects (first key `types`, then one key per `ExportMapping` in declaration
  order) and "never discards or reorders manifest keys it does not own".
* The external `base64` crate's `STANDARD` engine is modelled by an RFC 4648
  standard-alphabet padded encoder (`base64Encode`); the external `regex`
  crate's `replace_all` on the literal pattern built by `apply_vite_fix`
  (the module name is free of regex metacharacters) is modelled as leftmost
  non-overlapping literal replacement (`replaceAll`).
-/

namespace WasmBodge

/-- The wasm-bindgen CLI targets (`WasmBindgenTarget` in targets.rs). -/
inductive WasmBindgenTarget where
  | Nodejs
  | Web
  | Bundler
deriving DecidableEq

/-- `WasmBindgenTarget::as_str`. -/
def WasmBindgenTarget.as_str : WasmBindgenTarget → String
  | .Nodejs => "nodejs"
  | .Web => "web"
  | .Bundler => "bundler"

/-- `WasmBindgenTarget::all`. -/
def WasmBindgenTarget.all : List WasmBindgenTarget :=
  [.Nodejs, .Web, .Bundler]

/-- `WasmBindgenTarget::dir_name`. -/
def WasmBindgenTarget.dir_name (t : WasmBindgenTarget) : String :=
  t.as_str

/-- How an entrypoint initializes the wasm module (`InitStrategy` in targets.rs). -/
inductive InitStrategy where
  | AutoNodejs
  | Base64Embedded
  | SyncWasmImport
  | BundlerPassthrough
  | Manual
deriving DecidableEq

/-- A runtime environment (`Environment` in targets.rs). -/
inductive Environment where
  | Node
  | Web
  | Bundler
  | Workerd
  | Iife
  | Slim
deriving DecidableEq

/-- `Environment::all`: all environments entrypoints are generated for
(IIFE is handled specially, bundled from Web, and is not in the list). -/
def Environment.all : List Environment :=
  [.Node, .Web, .Bundler, .Workerd, .Slim]

/-- `Environment::file_stem`. -/
def Environment.file_stem : Environment → String
  | .Node => "node"
  | .Web => "web"
  | .Bundler => "bundler"
  | .Workerd => "workerd"
  | .Iife => "index"
  | .Slim => "slim"

/-- `Environment::wasm_bindgen_target`. -/
def Environment.wasm_bindgen_target : Environment → WasmBindgenTarget
  | .Node => .Nodejs
  | .Web => .Web
  | .Bundler => .Bundler
  | .Workerd => .Web
  | .Iife => .Web
  | .Slim => .Web

/-- `Environment::init_strategy`. -/
def Environment.init_strategy : Environment → InitStrategy
  | .Node => .AutoNodejs
  | .Web => .Base64Embedded
  | .Bundler => .BundlerPassthrough
  | .Workerd => .SyncWasmImport
  | .Iife => .Base64Embedded
  | .Slim => .Manual

/-- `Environment::needs_cjs_bundle`. -/
def Environment.needs_cjs_bundle : Environment → Bool
  | .Node => false
  | .Web => true
  | .Slim => true
  | .Bundler => false
  | .Workerd => false
  | .Iife => false

/-- An export condition in package.json (`ExportCondition` in targets.rs). -/
inductive ExportCondition where
  | Node
  | Browser
  | Workerd
  | Import
  | Require
deriving DecidableEq

/-- `ExportCondition::as_str`. -/
def ExportCondition.as_str : ExportCondition → String
  | .Node => "node"
  | .Browser => "browser"
  | .Workerd => "workerd"
  | .Import => "import"
  | .Require => "require"

/-- `ExportMapping` in targets.rs: how a package.json export condition maps to
environments (`esm` for imports, `cjs` for requires). -/
structure ExportMapping where
  condition : ExportCondition
  esm : Environment
  cjs : Environment
deriving DecidableEq

/-- `ROOT_EXPORT_MAPPING` in targets.rs, in its declaration order. -/
def ROOT_EXPORT_MAPPING : List ExportMapping :=
  [ { condition := .Workerd, esm := .Workerd, cjs := .Web },
    { condition := .Node, esm := .Node, cjs := .Node },
    { condition := .Browser, esm := .Bundler, cjs := .Web },
    { condition := .Import, esm := .Web, cjs := .Web },
    { condition := .Require, esm := .Web, cjs := .Web } ]

namespace paths

/-- `paths::wasm_bindgen_dir`: wasm_bindgen/{target}/ (without the trailing slash). -/
def wasm_bindgen_dir (target : WasmBindgenTarget) : String :=
  "wasm_bindgen/" ++ target.dir_name

/-- `paths::wasm_bindgen_js`: wasm_bindgen/{target}/{name}.js (or .cjs for nodejs). -/
def wasm_bindgen_js (target : WasmBindgenTarget) (wasm_name : String) : String :=
  wasm_bindgen_dir target ++ "/" ++ wasm_name ++ "." ++
    (if target = WasmBindgenTarget.Nodejs then "cjs" else "js")

/-- `paths::esm_entrypoint`: esm/{env}.js. -/
def esm_entrypoint (env : Environment) : String :=
  "esm/" ++ env.file_stem ++ ".js"

/-- `paths::cjs_entrypoint`: cjs/{env}.cjs. -/
def cjs_entrypoint (env : Environment) : String :=
  "cjs/" ++ env.file_stem ++ ".cjs"

/-- `paths::iife_bundle`. -/
def iife_bundle : String :=
  "iife/index.js"

/-- `paths::wasm_base64_esm`. -/
def wasm_base64_esm : String :=
  "esm/wasm-base64.js"

/-- `paths::wasm_base64_cjs`. -/
def wasm_base64_cjs : String :=
  "cjs/wasm-base64.cjs"

/-- `paths::types`. -/
def types : String :=
  "index.d.ts"

/-- `paths::standalone_wasm`: {package_name}.wasm. -/
def standalone_wasm (package_name : String) : String :=
  package_name ++ ".wasm"

end paths

/-- `generate_esm_entrypoint` in targets.rs: the JavaScript content of an ESM
entrypoint, dispatching on the environment's `InitStrategy`. -/
def generate_esm_entrypoint (env : Environment) (wasm_name : String) : String :=
  let target := env.wasm_bindgen_target
  match env.init_strategy with
  | InitStrategy.AutoNodejs =>
      "export * from '../" ++ paths.wasm_bindgen_js target wasm_name ++ "';\n"
  | InitStrategy.Base64Embedded =>
      "import { initSync } from '../wasm_bindgen/web/" ++ wasm_name ++ ".js';\n" ++
      "import { wasmBase64 } from './wasm-base64.js';\n" ++
      "const bytes = Uint8Array.from(atob(wasmBase64), c => c.charCodeAt(0));\n" ++
      "initSync(bytes);\n" ++
      "export * from '../wasm_bindgen/web/" ++ wasm_name ++ ".js';\n"
  | InitStrategy.SyncWasmImport =>
      "import * as exports from '../wasm_bindgen/web/" ++ wasm_name ++ ".js';\n" ++
      "import { initSync } from '../wasm_bindgen/web/" ++ wasm_name ++ ".js';\n" ++
      "import wasmModule from '../wasm_bindgen/web/" ++ wasm_name ++ "_bg.wasm';\n" ++
      "initSync({ module: wasmModule });\n" ++
      "export * from '../wasm_bindgen/web/" ++ wasm_name ++ ".js';\n"
  | InitStrategy.BundlerPassthrough =>
      "export * from '../" ++ paths.wasm_bindgen_js target wasm_name ++ "';\n"
  | InitStrategy.Manual =>
      "export * from '../wasm_bindgen/web/" ++ wasm_name ++ ".js';\n" ++
      "export { default } from '../wasm_bindgen/web/" ++ wasm_name ++ ".js';\n"

/-- `generate_cjs_entrypoint` in targets.rs: only the Node environment has a
simple CJS entrypoint; others are bundled from ESM. -/
def generate_cjs_entrypoint (env : Environment) (wasm_name : String) : Option String :=
  if env = Environment.Node then
    some ("module.exports = require('../" ++
      paths.wasm_bindgen_js WasmBindgenTarget.Nodejs wasm_name ++ "');\n")
  else
    none

/-- JSON values as the manifest merge manipulates them. -/
inductive Json where
  | null : Json
  | bool : Bool → Json
  | num : Int → Json
  | str : String → Json
  | arr : List Json → Json
  | obj : List (String × Json) → Json

/-- `serde_json::Value::as_str`. -/
def Json.asStr : Json → Option String
  | Json.str s => some s
  | _ => none

/-- Insertion into a `serde_json::Map` (insertion-ordered, as the spec's ordered
merge requires): an existing key's value is replaced in place, a fresh key is
appended at the end. -/
def mapInsert (k : String) (v : Json) : List (String × Json) → List (String × Json)
  | [] => [(k, v)]
  | (k₁, v₁) :: rest =>
      if k₁ = k then (k₁, v) :: rest else (k₁, v₁) :: mapInsert k v rest

/-- Key lookup in a `serde_json::Map`. -/
def mapLookup (m : List (String × Json)) (k : String) : Option Json :=
  match m with
  | [] => none
  | (k₁, v₁) :: rest => if k₁ = k then some v₁ else mapLookup rest k

/-- Lookup of a subpath inside a JSON object. -/
def objLookup (j : Json) (k : String) : Option Json :=
  match j with
  | Json.obj m => mapLookup m k
  | _ => none

/-- The closure `p` of `build_exports_map`: "./{dist}/{path}". -/
def distPath (dist path : String) : String :=
  "./" ++ dist ++ "/" ++ path

/-- One iteration of `build_exports_map`'s loop over `ROOT_EXPORT_MAPPING`:
`import`/`require` get a single path, every other condition a nested
`{import, require}` object. -/
def exportMappingStep (dist : String) (root : List (String × Json))
    (mapping : ExportMapping) : List (String × Json) :=
  let esm_path := distPath dist (paths.esm_entrypoint mapping.esm)
  let cjs_path := distPath dist (paths.cjs_entrypoint mapping.cjs)
  match mapping.condition with
  | ExportCondition.Import => mapInsert "import" (Json.str esm_path) root
  | ExportCondition.Require => mapInsert "require" (Json.str cjs_path) root
  | _ =>
      mapInsert mapping.condition.as_str
        (Json.obj [("import", Json.str esm_path), ("require", Json.str cjs_path)]) root

/-- `build_exports_map` in package_json.rs: the `exports` value merged into
package.json, built from `ROOT_EXPORT_MAPPING`. -/
def build_exports_map (dist package_name : String) : Json :=
  let root_export := mapInsert "types" (Json.str (distPath dist paths.types)) []
  let root_export := ROOT_EXPORT_MAPPING.foldl (exportMappingStep dist) root_export
  Json.obj
    [ (".", Json.obj root_export),
      ("./slim", Json.obj
        [ ("types", Json.str (distPath dist paths.types)),
          ("import", Json.str (distPath dist (paths.esm_entrypoint Environment.Slim))),
          ("require", Json.str (distPath dist (paths.cjs_entrypoint Environment.Slim))) ]),
      ("./wasm", Json.str (distPath dist (paths.standalone_wasm package_name))),
      ("./wasm-base64", Json.obj
        [ ("import", Json.str (distPath dist paths.wasm_base64_esm)),
          ("require", Json.str (distPath dist paths.wasm_base64_cjs)) ]),
      ("./iife", Json.str (distPath dist paths.iife_bundle)) ]

/-- The string entries of the manifest's `files` array (`update_files_array`
collects string entries and ignores everything else). -/
def getStringArray : Option Json → List String
  | some (Json.arr a) => a.filterMap Json.asStr
  | _ => []

/-- The `files` list after the merge: the out-dir is appended only when no
existing entry equals it or is one of its subpaths ("{dist}/..."). -/
def update_files_list (files : List String) (dist : String) : List String :=
  if files.any (fun f => f == dist || (dist ++ "/").isPrefixOf f) then files
  else files ++ [dist]

/-- `update_files_array` in package_json.rs. -/
def update_files_array (package_obj : List (String × Json)) (dist : String) :
    List (String × Json) :=
  let files := update_files_list (getStringArray (mapLookup package_obj "files")) dist
  mapInsert "files" (Json.arr (files.map Json.str)) package_obj

namespace package_json

/-- The pure core of `update` in package_json.rs: the merged manifest object
(reading and writing the file, and serialization, stripped away). -/
def update (package_obj : List (String × Json)) (dist package_name : String) :
    List (String × Json) :=
  let m := mapInsert "type" (Json.str "module") package_obj
  let m := mapInsert "main"
    (Json.str ("./" ++ dist ++ "/" ++ paths.cjs_entrypoint Environment.Node)) m
  let m := mapInsert "module"
    (Json.str ("./" ++ dist ++ "/" ++ paths.esm_entrypoint Environment.Bundler)) m
  let m := mapInsert "types" (Json.str ("./" ++ dist ++ "/" ++ paths.types)) m
  let m := update_files_array m dist
  mapInsert "exports" (build_exports_map dist package_name) m

end package_json

/-- The manifest keys `package_json::update` owns and overwrites. -/
def ownedKeys : List String :=
  ["type", "main", "module", "types", "files", "exports"]

/-- The standard base64 alphabet (RFC 4648, not URL-safe), as used by the
`base64` crate's `STANDARD` engine that `generate_base64_module` calls. -/
def BASE64_STANDARD_ALPHABET : String :=
  "ABCDEFGHIJKLMNOPQRSTUVWXYZabcdefghijklmnopqrstuvwxyz0123456789+/"

/-- The alphabet character for a six-bit value. -/
def b64Chr (n : Nat) : Char :=
  BASE64_STANDARD_ALPHABET.data.getD n '='

/-- The six-bit value of an alphabet character. -/
def b64Val (c : Char) : Option Nat :=
  let idx := BASE64_STANDARD_ALPHABET.data.indexOf c
  if idx < 64 then some idx else none

/-- Standard base64 encoding with padding, three input bytes per four output
characters, no line wrapping (the `STANDARD` engine of the `base64` crate). -/
def base64EncodeList : List Nat → List Char
  | [] => []
  | [b₁] => [b64Chr (b₁ / 4), b64Chr (b₁ % 4 * 16), '=', '=']
  | [b₁, b₂] => [b64Chr (b₁ / 4), b64Chr (b₁ % 4 * 16 + b₂ / 16), b64Chr (b₂ % 16 * 4), '=']
  | b₁ :: b₂ :: b₃ :: rest =>
      b64Chr (b₁ / 4) :: b64Chr (b₁ % 4 * 16 + b₂ / 16) ::
      b64Chr (b₂ % 16 * 4 + b₃ / 64) :: b64Chr (b₃ % 64) :: base64EncodeList rest

/-- Standard base64 encoding of a byte sequence, as a string. -/
def base64Encode (bs : List Nat) : String :=
  String.mk (base64EncodeList bs)

/-- Standard base64 decoding (four characters per group, `=` padding). -/
def base64DecodeList : List Char → Option (List Nat)
  | [] => some []
  | c₁ :: c₂ :: c₃ :: c₄ :: rest =>
      match b64Val c₁, b64Val c₂ with
      | some v₁, some v₂ =>
          if c₃ = '=' then
            if c₄ = '=' ∧ rest = [] then some [v₁ * 4 + v₂ / 16] else none
          else
            match b64Val c₃ with
            | some v₃ =>
                if c₄ = '=' then
                  if rest = [] then some [v₁ * 4 + v₂ / 16, v₂ % 16 * 16 + v₃ / 4]
                  else none
                else
                  match b64Val c₄ with
                  | some v₄ =>
                      match base64DecodeList rest with
                      | some ds =>
                          some ((v₁ * 4 + v₂ / 16) :: (v₂ % 16 * 16 + v₃ / 4) ::
                                (v₃ % 4 * 64 + v₄) :: ds)
                      | none => none
                  | none => none
            | none => none
      | _, _ => none
  | _ => some []

/-- Standard base64 decoding of a string. -/
def base64Decode (s : String) : Option (List Nat) :=
  base64DecodeList s.data

/-- `generate_base64_module` in post_process.rs: the generated ESM base64
payload module for the given wasm bytes. -/
def generate_base64_module (wasm_bytes : List Nat) : String :=
  "export const wasmBase64 = \"" ++ base64Encode wasm_bytes ++ "\";\n"

/-- Splitting a character list at every occurrence of a separator character
(Rust's `str::split(char)`). -/
def splitOnChar (sep : Char) : List Char → List (List Char)
  | [] => [[]]
  | c :: rest =>
      if c = sep then [] :: splitOnChar sep rest
      else
        match splitOnChar sep rest with
        | [] => [[c]]
        | p :: ps => (c :: p) :: ps

/-- The pure core of `generate_cjs_base64` in finalize.rs: take the substring
of the ESM base64 module between its first two double quotes
(`split('"').nth(1)`) and wrap it in a CommonJS export. -/
def generate_cjs_base64 (esm_base64 : String) : Option String :=
  match (splitOnChar '"' esm_base64.data).get? 1 with
  | some b64 => some ("module.exports.wasmBase64 = \"" ++ String.mk b64 ++ "\";\n")
  | none => none

/-- Leftmost non-overlapping replacement of every occurrence of `pat` by `rep`
(the `regex` crate's `replace_all` for a literal pattern). -/
def replaceAll (pat rep : List Char) : List Char → List Char
  | [] => []
  | c :: rest =>
      if h : pat ≠ [] ∧ pat.isPrefixOf (c :: rest) then
        rep ++ replaceAll pat rep ((c :: rest).drop pat.length)
      else
        c :: replaceAll pat rep rest
termination_by l => l.length
decreasing_by
  · simp only [List.length_drop, List.length_cons]
    have : pat.length ≠ 0 := fun h0 => h.1 (List.eq_nil_of_length_eq_zero h0)
    omega
  · simp

/-- Joining parts with a separator list between consecutive parts
(`List.intercalate`, spelled out for direct structural proofs). -/
def joinWith (sep : List Char) : List (List Char) → List Char
  | [] => []
  | [p] => p
  | p :: ps => p ++ sep ++ joinWith sep ps

/-- The literal construct `apply_vite_fix` searches for:
`new URL('{name}_bg.wasm', import.meta.url)` (the regex in post_process.rs,
with the module name free of regex metacharacters). -/
def vite_pattern (wasm_name : String) : String :=
  "new URL('" ++ wasm_name ++ "_bg.wasm', import.meta.url)"

/-- The replacement `apply_vite_fix` substitutes: the same construct with the
suppression comment inserted before `URL`. -/
def vite_replacement (wasm_name : String) : String :=
  "new /* @vite-ignore */ URL('" ++ wasm_name ++ "_bg.wasm', import.meta.url)"

/-- The pure core of `apply_vite_fix` in post_process.rs: replace every
occurrence of the pattern in the source text by the replacement. -/
def apply_vite_fix (wasm_name : String) (content : String) : String :=
  String.mk (replaceAll (vite_pattern wasm_name).data (vite_replacement wasm_name).data
    content.data)

/-- The characters a normalized module name consists of: the build pipeline
derives it from the crate name by replacing hyphens with underscores, so it is
alphanumeric-or-underscore. -/
def isModuleNameChar (c : Char) : Bool :=
  c.isAlphanum || c = '_'

/-- The substring relation on strings: `needle` occurs contiguously in `hay`. -/
def strHas (hay needle : String) : Prop :=
  needle.data <:+: hay.data

theorem str_append_assoc (a b c : String) : a ++ b ++ c = a ++ (b ++ c) := by
  apply String.ext
  simp [String.data_append, List.append_assoc]

theorem strHas_of_split (hay pre needle post : String)
    (h : hay = pre ++ (needle ++ post)) : strHas hay needle := by
  subst h
  exact ⟨pre.data, post.data, (List.append_assoc pre.data needle.data post.data).symm ▸ rfl⟩

theorem not_strHas_of_char (hay needle : String) (c : Char) (hc : c ∈ needle.data)
    (h : c ∉ hay.data) : ¬ strHas hay needle := by
  intro hsub
  exact h (hsub.subset hc)

theorem append_ne_empty_left (a b : String) (ha : a.data ≠ []) : a ++ b ≠ "" := by
  intro h
  apply ha
  have hd : a.data ++ b.data = [] := by
    have := congrArg String.data h
    simpa [String.data_append] using this
  exact (List.append_eq_nil.mp hd).1

/-- C3: in `ROOT_EXPORT_MAPPING`, the entry for the "browser" condition
resolves to an ESM environment whose binding target is the Bundler target, and
the entry for "workerd" resolves to an ESM environment whose initialization
strategy is synchronous-binary-import over the Web binding target. -/
theorem c3_root_export_mapping_resolution :
    (∃ m ∈ ROOT_EXPORT_MAPPING, m.condition = ExportCondition.Browser)
    ∧ (∃ m ∈ ROOT_EXPORT_MAPPING, m.condition = ExportCondition.Workerd)
    ∧ ∀ m ∈ ROOT_EXPORT_MAPPING,
        (m.condition = ExportCondition.Browser →
          m.esm = Environment.Bundler
          ∧ m.esm.wasm_bindgen_target = WasmBindgenTarget.Bundler)
        ∧ (m.condition = ExportCondition.Workerd →
          m.esm.init_strategy = InitStrategy.SyncWasmImport
          ∧ m.esm.wasm_bindgen_target = WasmBindgenTarget.Web) := by
  decide

/-- C9: `generate_cjs_entrypoint` returns a wrapper re-exporting the nodejs
binding output's .cjs file exactly for the Node environment (whose binding
target is Nodejs, the one natively producing CommonJS), and `none` for every
other environment. -/
theorem c9_generate_cjs_entrypoint (env : Environment) (wasm_name : String) :
    (generate_cjs_entrypoint env wasm_name =
        some ("module.exports = require('../wasm_bindgen/nodejs/" ++ wasm_name ++ ".cjs');\n")
      ↔ env = Environment.Node)
    ∧ (env ≠ Environment.Node → generate_cjs_entrypoint env wasm_name = none)
    ∧ Environment.Node.wasm_bindgen_target = WasmBindgenTarget.Nodejs := by
  have hm : generate_cjs_entrypoint Environment.Node wasm_name =
      some ("module.exports = require('../wasm_bindgen/nodejs/" ++ wasm_name ++ ".cjs');\n") := by
    show some _ = some _
    congr 1
    simp only [paths.wasm_bindgen_js, paths.wasm_bindgen_dir, WasmBindgenTarget.dir_name,
      WasmBindgenTarget.as_str, if_pos rfl, str_append_assoc]
    rfl
  cases env <;> simp_all [generate_cjs_entrypoint, Environment.wasm_bindgen_target]

/-- C1: for every output-directory prefix, the synthesized exports map's root
"." export has a single-path "import" (esm/web.js) and "require" (cjs/web.cjs),
nested {import, require} objects for the "node", "browser" and "workerd"
conditions, and the subpath exports "./slim", "./wasm" (the standalone binary
path), "./wasm-base64" (an import/require pair) and "./iife" (the bundle path). -/
theorem c1_build_exports_map_contents (d n : String) :
    ∃ root : List (String × Json),
      objLookup (build_exports_map d n) "." = some (Json.obj root)
      ∧ mapLookup root "import" = some (Json.str (distPath d "esm/web.js"))
      ∧ mapLookup root "require" = some (Json.str (distPath d "cjs/web.cjs"))
      ∧ mapLookup root "node" = some (Json.obj
          [("import", Json.str (distPath d "esm/node.js")),
           ("require", Json.str (distPath d "cjs/node.cjs"))])
      ∧ mapLookup root "browser" = some (Json.obj
          [("import", Json.str (distPath d "esm/bundler.js")),
           ("require", Json.str (distPath d "cjs/web.cjs"))])
      ∧ mapLookup root "workerd" = some (Json.obj
          [("import", Json.str (distPath d "esm/workerd.js")),
           ("require", Json.str (distPath d "cjs/web.cjs"))])
      ∧ objLookup (build_exports_map d n) "./slim" = some (Json.obj
          [("types", Json.str (distPath d "index.d.ts")),
           ("import", Json.str (distPath d "esm/slim.js")),
           ("require", Json.str (distPath d "cjs/slim.cjs"))])
      ∧ objLookup (build_exports_map d n) "./wasm" =
          some (Json.str (distPath d (n ++ ".wasm")))
      ∧ objLookup (build_exports_map d n) "./wasm-base64" = some (Json.obj
          [("import", Json.str (distPath d "esm/wasm-base64.js")),
           ("require", Json.str (distPath d "cjs/wasm-base64.cjs"))])
      ∧ objLookup (build_exports_map d n) "./iife" =
          some (Json.str (distPath d "iife/index.js")) :=
  ⟨_, rfl, rfl, rfl, rfl, rfl, rfl, rfl, rfl, rfl, rfl⟩

/-- C2: the root "." export object's first key is "types" and the remaining
keys follow in the declaration order of `ROOT_EXPORT_MAPPING`: "workerd",
"node", "browser", "import", "require" (runtime-specific conditions before the
generic import/require fallbacks). -/
theorem c2_root_export_key_order (d n : String) :
    ∃ root : List (String × Json),
      objLookup (build_exports_map d n) "." = some (Json.obj root)
      ∧ root.map Prod.fst = ["types", "workerd", "node", "browser", "import", "require"]
      ∧ ROOT_EXPORT_MAPPING.map (fun m => m.condition.as_str) =
          ["workerd", "node", "browser", "import", "require"] :=
  ⟨_, rfl, rfl, rfl⟩

theorem mapLookup_insert_self (k : String) (v : Json) (m : List (String × Json)) :
    mapLookup (mapInsert k v m) k = some v := by
  induction m with
  | nil => simp [mapInsert, mapLookup]
  | cons kv rest ih =>
    obtain ⟨k₁, v₁⟩ := kv
    by_cases h : k₁ = k
    · simp [mapInsert, mapLookup, h]
    · simp [mapInsert, mapLookup, h, ih]

theorem mapLookup_insert_ne (k k' : String) (v : Json) (m : List (String × Json))
    (h : k' ≠ k) : mapLookup (mapInsert k' v m) k = mapLookup m k := by
  induction m with
  | nil => simp [mapInsert, mapLookup, h]
  | cons kv rest ih =>
    obtain ⟨k₁, v₁⟩ := kv
    by_cases h₁ : k₁ = k'
    · subst h₁
      simp [mapInsert, mapLookup, h]
    · simp [mapInsert, mapLookup, h₁, ih]

theorem mapInsert_of_lookup_eq (k : String) (v : Json) (m : List (String × Json))
    (h : mapLookup m k = some v) : mapInsert k v m = m := by
  induction m with
  | nil => simp [mapLookup] at h
  | cons kv rest ih =>
    obtain ⟨k₁, v₁⟩ := kv
    by_cases h₁ : k₁ = k
    · simp only [mapLookup, if_pos h₁, Option.some.injEq] at h
      simp [mapInsert, h₁, h]
    · simp only [mapLookup, if_neg h₁] at h
      simp [mapInsert, h₁, ih h]

theorem filter_mapInsert (p : String × Json → Bool) (k : String) (v : Json)
    (m : List (String × Json)) (hp : ∀ w, p (k, w) = false) :
    (mapInsert k v m).filter p = m.filter p := by
  induction m with
  | nil => simp [mapInsert, hp]
  | cons kv rest ih =>
    obtain ⟨k₁, v₁⟩ := kv
    by_cases h₁ : k₁ = k
    · subst h₁
      simp [mapInsert, List.filter_cons, hp]
    · simp [mapInsert, h₁, List.filter_cons, ih]

theorem getStringArray_map_str (l : List String) :
    getStringArray (some (Json.arr (l.map Json.str))) = l := by
  induction l with
  | nil => simp [getStringArray]
  | cons a rest ih =>
    simpa [getStringArray, Json.asStr, List.filterMap_cons] using ih

theorem update_files_list_idem (l : List String) (d : String) :
    update_files_list (update_files_list l d) d = update_files_list l d := by
  unfold update_files_list
  by_cases h : l.any (fun f => f == d || (d ++ "/").isPrefixOf f)
  · simp [h]
  · simp [h, List.any_append]

/-- C8: the manifest merge preserves every key it does not own: the sub-list of
entries whose key is outside `ownedKeys` (type, main, module, types, files,
exports) is unchanged — same keys, same values, same relative order — and
lookups of unowned keys are unchanged. -/
theorem c8_update_preserves_unowned (pkg : List (String × Json)) (d n : String) :
    (package_json.update pkg d n).filter (fun kv => !(ownedKeys.contains kv.1))
      = pkg.filter (fun kv => !(ownedKeys.contains kv.1))
    ∧ ∀ k : String, k ∉ ownedKeys →
        mapLookup (package_json.update pkg d n) k = mapLookup pkg k := by
  have hstep : package_json.update pkg d n =
      mapInsert "exports" (build_exports_map d n)
        (mapInsert "files" (Json.arr ((update_files_list (getStringArray (mapLookup
            (mapInsert "types" (Json.str ("./" ++ d ++ "/" ++ paths.types))
              (mapInsert "module"
                (Json.str ("./" ++ d ++ "/" ++ paths.esm_entrypoint Environment.Bundler))
                (mapInsert "main"
                  (Json.str ("./" ++ d ++ "/" ++ paths.cjs_entrypoint Environment.Node))
                  (mapInsert "type" (Json.str "module") pkg)))) "files")) d).map Json.str))
          (mapInsert "types" (Json.str ("./" ++ d ++ "/" ++ paths.types))
            (mapInsert "module"
              (Json.str ("./" ++ d ++ "/" ++ paths.esm_entrypoint Environment.Bundler))
              (mapInsert "main"
                (Json.str ("./" ++ d ++ "/" ++ paths.cjs_entrypoint Environment.Node))
                (mapInsert "type" (Json.str "module") pkg))))) := rfl
  constructor
  · rw [hstep]
    rw [filter_mapInsert _ _ _ _ (fun _ => rfl)]
    rw [filter_mapInsert _ _ _ _ (fun _ => rfl)]
    rw [filter_mapInsert _ _ _ _ (fun _ => rfl)]
    rw [filter_mapInsert _ _ _ _ (fun _ => rfl)]
    rw [filter_mapInsert _ _ _ _ (fun _ => rfl)]
    rw [filter_mapInsert _ _ _ _ (fun _ => rfl)]
  · intro k hk
    have h₁ : "type" ≠ k := fun h => hk (h ▸ by simp [ownedKeys])
    have h₂ : "main" ≠ k := fun h => hk (h ▸ by simp [ownedKeys])
    have h₃ : "module" ≠ k := fun h => hk (h ▸ by simp [ownedKeys])
    have h₄ : "types" ≠ k := fun h => hk (h ▸ by simp [ownedKeys])
    have h₅ : "files" ≠ k := fun h => hk (h ▸ by simp [ownedKeys])
    have h₆ : "exports" ≠ k := fun h => hk (h ▸ by simp [ownedKeys])
    rw [hstep, mapLookup_insert_ne _ _ _ _ h₆, mapLookup_insert_ne _ _ _ _ h₅,
      mapLookup_insert_ne _ _ _ _ h₄, mapLookup_insert_ne _ _ _ _ h₃,
      mapLookup_insert_ne _ _ _ _ h₂, mapLookup_insert_ne _ _ _ _ h₁]

/-- C6: the manifest merge is idempotent — running it a second time on its own
output, with the same output-directory prefix and package name, yields an
identical manifest; the merged exports value is the one deterministic
`build_exports_map` result; and the files-array merge leaves the list
unchanged whenever an entry already equals the output directory or one of its
subpaths. -/
theorem c6_update_idempotent (pkg : List (String × Json)) (d n : String) :
    package_json.update (package_json.update pkg d n) d n = package_json.update pkg d n
    ∧ mapLookup (package_json.update pkg d n) "exports" = some (build_exports_map d n)
    ∧ ∀ files : List String,
        files.any (fun f => f == d || (d ++ "/").isPrefixOf f) = true →
        update_files_list files d = files := by
  set T : Json := Json.str "module" with hT
  set M : Json := Json.str ("./" ++ d ++ "/" ++ paths.cjs_entrypoint Environment.Node) with hM
  set O : Json := Json.str ("./" ++ d ++ "/" ++ paths.esm_entrypoint Environment.Bundler) with hO
  set Y : Json := Json.str ("./" ++ d ++ "/" ++ paths.types) with hY
  set E : Json := build_exports_map d n with hE
  set inner : List (String × Json) :=
    mapInsert "types" Y (mapInsert "module" O (mapInsert "main" M (mapInsert "type" T pkg)))
    with hinner
  set F : Json :=
    Json.arr ((update_files_list (getStringArray (mapLookup inner "files")) d).map Json.str)
    with hF
  have hu : package_json.update pkg d n = mapInsert "exports" E (mapInsert "files" F inner) :=
    rfl
  have l_ty : mapLookup (mapInsert "exports" E (mapInsert "files" F inner)) "type" = some T := by
    rw [hinner, mapLookup_insert_ne _ _ _ _ (by decide), mapLookup_insert_ne _ _ _ _ (by decide),
      mapLookup_insert_ne _ _ _ _ (by decide), mapLookup_insert_ne _ _ _ _ (by decide),
      mapLookup_insert_ne _ _ _ _ (by decide)]
    exact mapLookup_insert_self _ _ _
  have l_ma : mapLookup (mapInsert "exports" E (mapInsert "files" F inner)) "main" = some M := by
    rw [hinner, mapLookup_insert_ne _ _ _ _ (by decide), mapLookup_insert_ne _ _ _ _ (by decide),
      mapLookup_insert_ne _ _ _ _ (by decide), mapLookup_insert_ne _ _ _ _ (by decide)]
    exact mapLookup_insert_self _ _ _
  have l_mo : mapLookup (mapInsert "exports" E (mapInsert "files" F inner)) "module" = some O := by
    rw [hinner, mapLookup_insert_ne _ _ _ _ (by decide), mapLookup_insert_ne _ _ _ _ (by decide),
      mapLookup_insert_ne _ _ _ _ (by decide)]
    exact mapLookup_insert_self _ _ _
  have l_yy : mapLookup (mapInsert "exports" E (mapInsert "files" F inner)) "types" = some Y := by
    rw [hinner, mapLookup_insert_ne _ _ _ _ (by decide), mapLookup_insert_ne _ _ _ _ (by decide)]
    exact mapLookup_insert_self _ _ _
  have l_fi : mapLookup (mapInsert "exports" E (mapInsert "files" F inner)) "files" = some F := by
    rw [mapLookup_insert_ne _ _ _ _ (by decide)]
    exact mapLookup_insert_self _ _ _
  have l_ex : mapLookup (mapInsert "exports" E (mapInsert "files" F inner)) "exports" = some E :=
    mapLookup_insert_self _ _ _
  refine ⟨?_, ?_, ?_⟩
  · rw [hu]
    have s₁ : mapInsert "type" T (mapInsert "exports" E (mapInsert "files" F inner))
        = mapInsert "exports" E (mapInsert "files" F inner) :=
      mapInsert_of_lookup_eq _ _ _ l_ty
    have s₄ : mapInsert "types" Y (mapInsert "module" O (mapInsert "main" M
        (mapInsert "type" T (mapInsert "exports" E (mapInsert "files" F inner)))))
        = mapInsert "exports" E (mapInsert "files" F inner) := by
      rw [s₁, mapInsert_of_lookup_eq _ _ _ l_ma, mapInsert_of_lookup_eq _ _ _ l_mo,
        mapInsert_of_lookup_eq _ _ _ l_yy]
    show mapInsert "exports" E (update_files_array (mapInsert "types" Y (mapInsert "module" O
        (mapInsert "main" M (mapInsert "type" T
          (mapInsert "exports" E (mapInsert "files" F inner)))))) d)
      = mapInsert "exports" E (mapInsert "files" F inner)
    rw [update_files_array, s₄, l_fi, hF, getStringArray_map_str, update_files_list_idem, ← hF]
    rw [mapInsert_of_lookup_eq _ _ _ l_fi]
    rw [mapInsert_of_lookup_eq _ _ _ l_ex]
  · rw [hu]
    exact l_ex
  · intro files h
    simp [update_files_list, h]

theorem b64Val_b64Chr : ∀ n : Nat, n < 64 → b64Val (b64Chr n) = some n := by
  decide

theorem b64Chr_ne_pad : ∀ n : Nat, n < 64 → b64Chr n ≠ '=' := by
  decide

theorem b64Chr_mem (n : Nat) :
    b64Chr n ∈ BASE64_STANDARD_ALPHABET.data ∨ b64Chr n = '=' := by
  by_cases h : n < 64
  · left
    have hall : ∀ m : Nat, m < 64 → b64Chr m ∈ BASE64_STANDARD_ALPHABET.data := by decide
    exact hall n h
  · right
    unfold b64Chr
    apply List.getD_eq_default
    have hlen : BASE64_STANDARD_ALPHABET.data.length = 64 := by decide
    omega

theorem base64EncodeList_chars :
    ∀ bs : List Nat, ∀ c ∈ base64EncodeList bs,
      c ∈ BASE64_STANDARD_ALPHABET.data ∨ c = '='
  | [] => by simp [base64EncodeList]
  | [b₁] => by
      intro c hc
      simp only [base64EncodeList, List.mem_cons, List.not_mem_nil, or_false] at hc
      rcases hc with rfl | rfl | rfl | rfl
      · exact b64Chr_mem _
      · exact b64Chr_mem _
      · exact Or.inr rfl
      · exact Or.inr rfl
  | [b₁, b₂] => by
      intro c hc
      simp only [base64EncodeList, List.mem_cons, List.not_mem_nil, or_false] at hc
      rcases hc with rfl | rfl | rfl | rfl
      · exact b64Chr_mem _
      · exact b64Chr_mem _
      · exact b64Chr_mem _
      · exact Or.inr rfl
  | b₁ :: b₂ :: b₃ :: rest => by
      intro c hc
      simp only [base64EncodeList, List.mem_cons] at hc
      rcases hc with rfl | rfl | rfl | rfl | hc
      · exact b64Chr_mem _
      · exact b64Chr_mem _
      · exact b64Chr_mem _
      · exact b64Chr_mem _
      · exact base64EncodeList_chars rest c hc

theorem base64_roundtrip :
    ∀ bs : List Nat, (∀ b ∈ bs, b < 256) →
      base64DecodeList (base64EncodeList bs) = some bs
  | [], _ => rfl
  | [b₁], h => by
      have hb₁ : b₁ < 256 := h b₁ (by simp)
      have h₁ : b₁ / 4 < 64 := by omega
      have h₂ : b₁ % 4 * 16 < 64 := by omega
      show base64DecodeList [b64Chr (b₁ / 4), b64Chr (b₁ % 4 * 16), '=', '='] = some [b₁]
      simp only [base64DecodeList, b64Val_b64Chr _ h₁, b64Val_b64Chr _ h₂, if_pos rfl,
        and_self, if_true]
      have harith : b₁ / 4 * 4 + b₁ % 4 * 16 / 16 = b₁ := by omega
      rw [harith]
  | [b₁, b₂], h => by
      have hb₁ : b₁ < 256 := h b₁ (by simp)
      have hb₂ : b₂ < 256 := h b₂ (by simp)
      have h₁ : b₁ / 4 < 64 := by omega
      have h₂ : b₁ % 4 * 16 + b₂ / 16 < 64 := by omega
      have h₃ : b₂ % 16 * 4 < 64 := by omega
      show base64DecodeList
          [b64Chr (b₁ / 4), b64Chr (b₁ % 4 * 16 + b₂ / 16), b64Chr (b₂ % 16 * 4), '=']
        = some [b₁, b₂]
      simp only [base64DecodeList, b64Val_b64Chr _ h₁, b64Val_b64Chr _ h₂, b64Val_b64Chr _ h₃,
        if_neg (b64Chr_ne_pad _ h₃), if_pos rfl, if_true]
      have ha₁ : b₁ / 4 * 4 + (b₁ % 4 * 16 + b₂ / 16) / 16 = b₁ := by omega
      have ha₂ : (b₁ % 4 * 16 + b₂ / 16) % 16 * 16 + b₂ % 16 * 4 / 4 = b₂ := by omega
      rw [ha₁, ha₂]
  | b₁ :: b₂ :: b₃ :: rest, h => by
      have hb₁ : b₁ < 256 := h b₁ (by simp)
      have hb₂ : b₂ < 256 := h b₂ (by simp)
      have hb₃ : b₃ < 256 := h b₃ (by simp)
      have h₁ : b₁ / 4 < 64 := by omega
      have h₂ : b₁ % 4 * 16 + b₂ / 16 < 64 := by omega
      have h₃ : b₂ % 16 * 4 + b₃ / 64 < 64 := by omega
      have h₄ : b₃ % 64 < 64 := by omega
      have ih : base64DecodeList (base64EncodeList rest) = some rest :=
        base64_roundtrip rest (fun b hb => h b (by simp [hb]))
      show base64DecodeList
          (b64Chr (b₁ / 4) :: b64Chr (b₁ % 4 * 16 + b₂ / 16) ::
           b64Chr (b₂ % 16 * 4 + b₃ / 64) :: b64Chr (b₃ % 64) :: base64EncodeList rest)
        = some (b₁ :: b₂ :: b₃ :: rest)
      simp only [base64DecodeList, b64Val_b64Chr _ h₁, b64Val_b64Chr _ h₂, b64Val_b64Chr _ h₃,
        b64Val_b64Chr _ h₄, if_neg (b64Chr_ne_pad _ h₃), if_neg (b64Chr_ne_pad _ h₄), ih]
      have ha₁ : b₁ / 4 * 4 + (b₁ % 4 * 16 + b₂ / 16) / 16 = b₁ := by omega
      have ha₂ : (b₁ % 4 * 16 + b₂ / 16) % 16 * 16 + (b₂ % 16 * 4 + b₃ / 64) / 4 = b₂ := by
        omega
      have ha₃ : (b₂ % 16 * 4 + b₃ / 64) % 4 * 64 + b₃ % 64 = b₃ := by omega
      rw [ha₁, ha₂, ha₃]

/-- C7: the generated base64 payload module is the single named export
`wasmBase64` assigned a double-quoted string literal; that string is the
standard-alphabet base64 encoding of the wasm bytes with no line wrapping (no
newline, and no double quote, so the literal is well formed); and decoding it
with a standard base64 decoder reproduces the original bytes exactly. -/
theorem c7_generate_base64_module (bs : List Nat) (h : ∀ b ∈ bs, b < 256) :
    generate_base64_module bs
      = "export const wasmBase64 = \"" ++ base64Encode bs ++ "\";\n"
    ∧ (∀ c ∈ (base64Encode bs).data, c ∈ BASE64_STANDARD_ALPHABET.data ∨ c = '=')
    ∧ '\n' ∉ (base64Encode bs).data
    ∧ '"' ∉ (base64Encode bs).data
    ∧ base64Decode (base64Encode bs) = some bs := by
  refine ⟨rfl, base64EncodeList_chars bs, ?_, ?_, base64_roundtrip bs h⟩
  · intro hmem
    rcases base64EncodeList_chars bs _ hmem with hin | heq
    · exact absurd hin (by decide)
    · exact absurd heq (by decide)
  · intro hmem
    rcases base64EncodeList_chars bs _ hmem with hin | heq
    · exact absurd hin (by decide)
    · exact absurd heq (by decide)

/-- C7 witness: the round trip at the buffer containing all 256 byte values. -/
theorem c7_generate_base64_module_witness :
    base64Decode (base64Encode (List.range 256)) = some (List.range 256) :=
  (c7_generate_base64_module (List.range 256) (fun b hb => List.mem_range.mp hb)).2.2.2.2

theorem splitOnChar_append (sep : Char) (xs ys : List Char) (h : sep ∉ xs) :
    splitOnChar sep (xs ++ sep :: ys) = xs :: splitOnChar sep ys := by
  induction xs with
  | nil => simp [splitOnChar]
  | cons c xs ih =>
    have hc : c ≠ sep := fun hh => h (hh ▸ List.mem_cons_self _ _)
    have h' : sep ∉ xs := fun hh => h (List.mem_cons_of_mem _ hh)
    have ih₂ : splitOnChar sep (xs.append (sep :: ys)) = xs :: splitOnChar sep ys := ih h'
    simp only [List.cons_append, splitOnChar, if_neg hc, ih h', ih₂]

/-- C10: extracting the substring between the first two double quotes of the
generated ESM base64 module recovers exactly the embedded base64 string —
standard base64 output contains no double quote — so the generated CJS module
exports the same `wasmBase64` string value. -/
theorem c10_generate_cjs_base64 (bs : List Nat) (h : ∀ b ∈ bs, b < 256) :
    generate_cjs_base64 (generate_base64_module bs)
      = some ("module.exports.wasmBase64 = \"" ++ base64Encode bs ++ "\";\n")
    ∧ '"' ∉ (base64Encode bs).data := by
  have hq : '"' ∉ (base64Encode bs).data := by
    intro hmem
    rcases base64EncodeList_chars bs _ hmem with hin | heq
    · exact absurd hin (by decide)
    · exact absurd heq (by decide)
  refine ⟨?_, hq⟩
  have hform : (generate_base64_module bs).data
      = "export const wasmBase64 = ".data ++
        '"' :: ((base64Encode bs).data ++ '"' :: ";\n".data) := rfl
  unfold generate_cjs_base64
  rw [hform, splitOnChar_append _ _ _ (by decide), splitOnChar_append _ _ _ hq]
  rfl

/-- C10 witness: the CJS base64 module extracted from the ESM module for the
concrete buffer [0, 255, 16] embeds the same base64 string. -/
theorem c10_generate_cjs_base64_witness :
    generate_cjs_base64 (generate_base64_module [0, 255, 16])
      = some ("module.exports.wasmBase64 = \"" ++ base64Encode [0, 255, 16] ++ "\";\n") :=
  (c10_generate_cjs_base64 [0, 255, 16] (by decide)).1

theorem not_infix_nil_of_ne_nil {pat : List Char} (hpat : pat ≠ []) :
    ¬ pat <:+: ([] : List Char) :=
  fun hinf => hpat (List.sublist_nil.mp hinf.sublist)

theorem replaceAll_parts (pat rep : List Char) (hpat : pat ≠ []) :
    ∀ (n : Nat) (l : List Char), l.length ≤ n →
      ∃ parts : List (List Char), parts ≠ []
        ∧ l = joinWith pat parts
        ∧ replaceAll pat rep l = joinWith rep parts
        ∧ ∀ p ∈ parts, ¬ pat <:+: p := by
  intro n
  induction n with
  | zero =>
    intro l hl
    have hnil : l = [] := List.eq_nil_of_length_eq_zero (Nat.le_zero.mp hl)
    subst hnil
    refine ⟨[[]], by simp, rfl, by simp [replaceAll, joinWith], ?_⟩
    intro p hp
    simp only [List.mem_singleton] at hp
    subst hp
    exact not_infix_nil_of_ne_nil hpat
  | succ n ih =>
    intro l hl
    cases l with
    | nil =>
      refine ⟨[[]], by simp, rfl, by simp [replaceAll, joinWith], ?_⟩
      intro p hp
      simp only [List.mem_singleton] at hp
      subst hp
      exact not_infix_nil_of_ne_nil hpat
    | cons c rest =>
      by_cases hpre : pat.isPrefixOf (c :: rest)
      · have heq : replaceAll pat rep (c :: rest)
            = rep ++ replaceAll pat rep ((c :: rest).drop pat.length) := by
          rw [replaceAll, dif_pos ⟨hpat, hpre⟩]
        obtain ⟨t, ht⟩ : ∃ t, pat ++ t = c :: rest := List.isPrefixOf_iff_prefix.mp hpre
        have hdrop : (c :: rest).drop pat.length = t := by
          rw [← ht, List.drop_left]
        have hlen : t.length ≤ n := by
          have h₁ : pat.length + t.length = rest.length + 1 := by
            have := congrArg List.length ht
            simpa [List.length_append] using this
          have h₂ : 0 < pat.length := List.length_pos.mpr hpat
          simp only [List.length_cons] at hl
          omega
        obtain ⟨parts, hne, hjoin, hrep, hfree⟩ := ih t hlen
        obtain ⟨p, ps, rfl⟩ := List.exists_cons_of_ne_nil hne
        refine ⟨[] :: p :: ps, List.cons_ne_nil _ _, ?_, ?_, ?_⟩
        · show c :: rest = joinWith pat ([] :: p :: ps)
          rw [joinWith.eq_3 _ _ _ (List.cons_ne_nil _ _), List.nil_append, ← hjoin]
          exact ht.symm
        · show replaceAll pat rep (c :: rest) = joinWith rep ([] :: p :: ps)
          rw [heq, hdrop, hrep, joinWith.eq_3 _ _ _ (List.cons_ne_nil _ _), List.nil_append]
        · intro x hx
          rcases List.mem_cons.mp hx with rfl | hx
          · exact not_infix_nil_of_ne_nil hpat
          · exact hfree x hx
      · have heq : replaceAll pat rep (c :: rest) = c :: replaceAll pat rep rest := by
          rw [replaceAll, dif_neg (fun hh => hpre hh.2)]
        have hlen : rest.length ≤ n := by
          simp only [List.length_cons] at hl
          omega
        obtain ⟨parts, hne, hjoin, hrep, hfree⟩ := ih rest hlen
        obtain ⟨p, ps, rfl⟩ := List.exists_cons_of_ne_nil hne
        have hp_rest : p <+: rest := by
          cases ps with
          | nil =>
            rw [joinWith.eq_2] at hjoin
            exact hjoin ▸ List.prefix_rfl
          | cons q qs =>
            rw [joinWith.eq_3 _ _ _ (List.cons_ne_nil _ _)] at hjoin
            rw [hjoin, List.append_assoc]
            exact List.prefix_append _ _
        refine ⟨(c :: p) :: ps, List.cons_ne_nil _ _, ?_, ?_, ?_⟩
        · show c :: rest = joinWith pat ((c :: p) :: ps)
          cases ps with
          | nil =>
            rw [joinWith.eq_2] at hjoin ⊢
            rw [hjoin]
          | cons q qs =>
            rw [joinWith.eq_3 _ _ _ (List.cons_ne_nil _ _)] at hjoin ⊢
            rw [hjoin]
            simp [List.cons_append]
        · show replaceAll pat rep (c :: rest) = joinWith rep ((c :: p) :: ps)
          rw [heq, hrep]
          cases ps with
          | nil => rw [joinWith.eq_2, joinWith.eq_2]
          | cons q qs =>
            rw [joinWith.eq_3 _ _ _ (List.cons_ne_nil _ _),
              joinWith.eq_3 _ _ _ (List.cons_ne_nil _ _)]
            simp [List.cons_append]
        · intro x hx
          rcases List.mem_cons.mp hx with rfl | hx
          · intro hinf
            rcases List.infix_cons_iff.mp hinf with hpref | hinf₂
            · have hcr : pat <+: c :: rest :=
                hpref.trans (List.cons_prefix_cons.mpr ⟨rfl, hp_rest⟩)
              exact hpre (List.isPrefixOf_iff_prefix.mpr hcr)
            · exact hfree p (List.mem_cons_self _ _) hinf₂
          · exact hfree x (List.mem_cons_of_mem _ hx)

theorem replaceAll_no_occurrence (pat rep l : List Char) (h : ¬ pat <:+: l) :
    replaceAll pat rep l = l := by
  induction l with
  | nil => rw [replaceAll]
  | cons c rest ih =>
    have hpre : ¬ pat.isPrefixOf (c :: rest) :=
      fun hp => h (List.isPrefixOf_iff_prefix.mp hp).isInfix
    have hrest : ¬ pat <:+: rest := fun hi => h (List.infix_cons hi)
    rw [replaceAll, dif_neg (fun hh => hpre hh.2), ih hrest]

/-- C5: for every source text and module name, the static-analysis-hazard
patch decomposes the input at the occurrences of the literal construct
`new URL('<module>_bg.wasm', import.meta.url)` and rebuilds it with each
occurrence replaced by the identical URL construct immediately preceded by the
`@vite-ignore` suppression comment, every part between occurrences (none of
which contains the construct) unchanged; and when the construct is absent the
transform returns the input unchanged rather than an error. -/
theorem c5_apply_vite_fix (wasm_name content : String) :
    (∃ parts : List (List Char), parts ≠ []
      ∧ content.data = joinWith (vite_pattern wasm_name).data parts
      ∧ (apply_vite_fix wasm_name content).data = joinWith (vite_replacement wasm_name).data parts
      ∧ ∀ p ∈ parts, ¬ (vite_pattern wasm_name).data <:+: p)
    ∧ vite_pattern wasm_name
        = "new " ++ ("URL('" ++ wasm_name ++ "_bg.wasm', import.meta.url)")
    ∧ vite_replacement wasm_name
        = "new /* @vite-ignore */ " ++ ("URL('" ++ wasm_name ++ "_bg.wasm', import.meta.url)")
    ∧ (¬ strHas content (vite_pattern wasm_name) →
        apply_vite_fix wasm_name content = content) := by
  have hpat : (vite_pattern wasm_name).data ≠ [] := by
    show ("new URL('" ++ wasm_name ++ "_bg.wasm', import.meta.url)").data ≠ []
    simp [String.data_append]
  refine ⟨?_, ?_, ?_, ?_⟩
  · exact replaceAll_parts (vite_pattern wasm_name).data (vite_replacement wasm_name).data
      hpat content.data.length content.data le_rfl
  · simp only [vite_pattern, str_append_assoc]
    rfl
  · simp only [vite_replacement, str_append_assoc]
    rfl
  · intro h
    apply String.ext
    exact replaceAll_no_occurrence _ _ _ h

theorem no_paren_in_name {name : String}
    (hname : ∀ c ∈ name.data, isModuleNameChar c = true) : '(' ∉ name.data :=
  fun h => absurd (hname '(' h) (by decide)

/-- C4: for every environment in the closed set `Environment.all` and every
module name (alphanumeric-or-underscore, as crate-name normalization
produces), the synthesized ESM entrypoint is non-empty and carries its
`InitStrategy`-specific required substrings: embed-as-base64 output contains
an `initSync` call and the import of the base64 payload module;
synchronous-binary-import output imports the binary module and passes it to
`initSync`; manual output re-exports the public surface and the default
initializer and contains no `initSync` invocation. -/
theorem c4_generate_esm_entrypoint (env : Environment) (henv : env ∈ Environment.all)
    (wasm_name : String) (hname : ∀ c ∈ wasm_name.data, isModuleNameChar c = true) :
    generate_esm_entrypoint env wasm_name ≠ ""
    ∧ (env.init_strategy = InitStrategy.Base64Embedded →
        strHas (generate_esm_entrypoint env wasm_name) "initSync(bytes);"
        ∧ strHas (generate_esm_entrypoint env wasm_name)
            "import { wasmBase64 } from './wasm-base64.js';")
    ∧ (env.init_strategy = InitStrategy.SyncWasmImport →
        strHas (generate_esm_entrypoint env wasm_name)
          ("import wasmModule from '../wasm_bindgen/web/" ++ wasm_name ++ "_bg.wasm';")
        ∧ strHas (generate_esm_entrypoint env wasm_name) "initSync({ module: wasmModule });")
    ∧ (env.init_strategy = InitStrategy.Manual →
        strHas (generate_esm_entrypoint env wasm_name) "export * from"
        ∧ strHas (generate_esm_entrypoint env wasm_name) "export { default }"
        ∧ ¬ strHas (generate_esm_entrypoint env wasm_name) "initSync(") := by
  cases env with
  | Node =>
    have hform : generate_esm_entrypoint Environment.Node wasm_name
        = "export * from '../wasm_bindgen/nodejs/" ++ (wasm_name ++ ".cjs';\n") := by
      simp only [generate_esm_entrypoint, Environment.init_strategy,
        Environment.wasm_bindgen_target, paths.wasm_bindgen_js, paths.wasm_bindgen_dir,
        WasmBindgenTarget.dir_name, WasmBindgenTarget.as_str, reduceIte, str_append_assoc]
      rfl
    refine ⟨?_, fun h => absurd h (by decide), fun h => absurd h (by decide),
      fun h => absurd h (by decide)⟩
    rw [hform]
    exact append_ne_empty_left _ _ (by decide)
  | Web =>
    have hform : generate_esm_entrypoint Environment.Web wasm_name
        = "import { initSync } from '../wasm_bindgen/web/" ++ (wasm_name ++
          (".js';\nimport { wasmBase64 } from './wasm-base64.js';\nconst bytes = Uint8Array.from(atob(wasmBase64), c => c.charCodeAt(0));\ninitSync(bytes);\nexport * from '../wasm_bindgen/web/" ++
          (wasm_name ++ ".js';\n"))) := by
      simp only [generate_esm_entrypoint, Environment.init_strategy, str_append_assoc]
      rfl
    refine ⟨?_, fun _ => ⟨?_, ?_⟩, fun h => absurd h (by decide),
      fun h => absurd h (by decide)⟩
    · rw [hform]
      exact append_ne_empty_left _ _ (by decide)
    · refine strHas_of_split _
        ("import { initSync } from '../wasm_bindgen/web/" ++ (wasm_name ++
          ".js';\nimport { wasmBase64 } from './wasm-base64.js';\nconst bytes = Uint8Array.from(atob(wasmBase64), c => c.charCodeAt(0));\n"))
        _ ("\nexport * from '../wasm_bindgen/web/" ++ (wasm_name ++ ".js';\n")) ?_
      rw [hform]
      simp only [str_append_assoc]
      rfl
    · refine strHas_of_split _
        ("import { initSync } from '../wasm_bindgen/web/" ++ (wasm_name ++ ".js';\n"))
        _ ("\nconst bytes = Uint8Array.from(atob(wasmBase64), c => c.charCodeAt(0));\ninitSync(bytes);\nexport * from '../wasm_bindgen/web/" ++
          (wasm_name ++ ".js';\n")) ?_
      rw [hform]
      simp only [str_append_assoc]
      rfl
  | Bundler =>
    have hform : generate_esm_entrypoint Environment.Bundler wasm_name
        = "export * from '../wasm_bindgen/bundler/" ++ (wasm_name ++ ".js';\n") := by
      simp only [generate_esm_entrypoint, Environment.init_strategy,
        Environment.wasm_bindgen_target, paths.wasm_bindgen_js, paths.wasm_bindgen_dir,
        WasmBindgenTarget.dir_name, WasmBindgenTarget.as_str, reduceIte, str_append_assoc]
      rfl
    refine ⟨?_, fun h => absurd h (by decide), fun h => absurd h (by decide),
      fun h => absurd h (by decide)⟩
    rw [hform]
    exact append_ne_empty_left _ _ (by decide)
  | Workerd =>
    have hform : generate_esm_entrypoint Environment.Workerd wasm_name
        = "import * as exports from '../wasm_bindgen/web/" ++ (wasm_name ++
          (".js';\nimport { initSync } from '../wasm_bindgen/web/" ++ (wasm_name ++
          (".js';\nimport wasmModule from '../wasm_bindgen/web/" ++ (wasm_name ++
          ("_bg.wasm';\ninitSync({ module: wasmModule });\nexport * from '../wasm_bindgen/web/" ++
          (wasm_name ++ ".js';\n"))))))) := by
      simp only [generate_esm_entrypoint, Environment.init_strategy, str_append_assoc]
      rfl
    refine ⟨?_, fun h => absurd h (by decide), fun _ => ⟨?_, ?_⟩,
      fun h => absurd h (by decide)⟩
    · rw [hform]
      exact append_ne_empty_left _ _ (by decide)
    · refine strHas_of_split _
        ("import * as exports from '../wasm_bindgen/web/" ++ (wasm_name ++
          (".js';\nimport { initSync } from '../wasm_bindgen/web/" ++
          (wasm_name ++ ".js';\n"))))
        _ ("\ninitSync({ module: wasmModule });\nexport * from '../wasm_bindgen/web/" ++
          (wasm_name ++ ".js';\n")) ?_
      rw [hform]
      simp only [str_append_assoc]
      rfl
    · refine strHas_of_split _
        ("import * as exports from '../wasm_bindgen/web/" ++ (wasm_name ++
          (".js';\nimport { initSync } from '../wasm_bindgen/web/" ++ (wasm_name ++
          (".js';\nimport wasmModule from '../wasm_bindgen/web/" ++
          (wasm_name ++ "_bg.wasm';\n"))))))
        _ ("\nexport * from '../wasm_bindgen/web/" ++ (wasm_name ++ ".js';\n")) ?_
      rw [hform]
      simp only [str_append_assoc]
      rfl
  | Iife =>
    exact absurd henv (by decide)
  | Slim =>
    have hform : generate_esm_entrypoint Environment.Slim wasm_name
        = "export * from '../wasm_bindgen/web/" ++ (wasm_name ++
          (".js';\nexport { default } from '../wasm_bindgen/web/" ++
          (wasm_name ++ ".js';\n"))) := by
      simp only [generate_esm_entrypoint, Environment.init_strategy, str_append_assoc]
      rfl
    refine ⟨?_, fun h => absurd h (by decide), fun h => absurd h (by decide),
      fun _ => ⟨?_, ?_, ?_⟩⟩
    · rw [hform]
      exact append_ne_empty_left _ _ (by decide)
    · refine strHas_of_split _ "" _
        (" '../wasm_bindgen/web/" ++ (wasm_name ++
          (".js';\nexport { default } from '../wasm_bindgen/web/" ++
          (wasm_name ++ ".js';\n")))) ?_
      rw [hform]
      rfl
    · refine strHas_of_split _
        ("export * from '../wasm_bindgen/web/" ++ (wasm_name ++ ".js';\n"))
        _ (" from '../wasm_bindgen/web/" ++ (wasm_name ++ ".js';\n")) ?_
      rw [hform]
      simp only [str_append_assoc]
      rfl
    · apply not_strHas_of_char _ _ '(' (by decide)
      have hd : (generate_esm_entrypoint Environment.Slim wasm_name).data
          = "export * from '../wasm_bindgen/web/".data ++ (wasm_name.data ++
            (".js';\nexport { default } from '../wasm_bindgen/web/".data ++
            (wasm_name.data ++ ".js';\n".data))) := congrArg String.data hform
      rw [hd]
      intro hmem
      simp only [List.mem_append] at hmem
      rcases hmem with h | h | h | h | h
      · exact absurd h (by decide)
      · exact no_paren_in_name hname h
      · exact absurd h (by decide)
      · exact no_paren_in_name hname h
      · exact absurd h (by decide)

/-- C4 witness: the embed-as-base64 environment at the module name my_lib. -/
theorem c4_generate_esm_entrypoint_witness :
    generate_esm_entrypoint Environment.Web "my_lib" ≠ ""
    ∧ (Environment.Web.init_strategy = InitStrategy.Base64Embedded →
        strHas (generate_esm_entrypoint Environment.Web "my_lib") "initSync(bytes);"
        ∧ strHas (generate_esm_entrypoint Environment.Web "my_lib")
            "import { wasmBase64 } from './wasm-base64.js';")
    ∧ (Environment.Web.init_strategy = InitStrategy.SyncWasmImport →
        strHas (generate_esm_entrypoint Environment.Web "my_lib")
          ("import wasmModule from '../wasm_bindgen/web/" ++ "my_lib" ++ "_bg.wasm';")
        ∧ strHas (generate_esm_entrypoint Environment.Web "my_lib")
            "initSync({ module: wasmModule });")
    ∧ (Environment.Web.init_strategy = InitStrategy.Manual →
        strHas (generate_esm_entrypoint Environment.Web "my_lib") "export * from"
        ∧ strHas (generate_esm_entrypoint Environment.Web "my_lib") "export { default }"
        ∧ ¬ strHas (generate_esm_entrypoint Environment.Web "my_lib") "initSync(") :=
  c4_generate_esm_entrypoint Environment.Web (by decide) "my_lib" (by decide)

end WasmBodge
